import Mathlib

/-!
Shallow embedding of the consensus-mvp core (a DAG-based proof-of-stake
consensus prototype) and proofs about it.

Conventions used throughout:
* block and transaction hashes, as well as public keys, are abstracted as
  natural numbers (SHA-256 and EC keys are opaque identities in the source);
* Python dictionaries become total functions into `Option` or into lists
  (a missing key reads as `none` / `[]`);
* fallible operations (deserialization) return `Except`;
* mutable objects become explicit state records threaded through functions.
-/

/-- Block and transaction hashes, abstracted. -/
abbrev Hash := Nat

/-- Validator public keys, abstracted. -/
abbrev PubKey := Nat

/-! ## Era arithmetic from `chain/dag.py` (the `Epoch` constants and
`Dag.get_era_duration` / `Dag.get_era_number` / `Dag.get_era_hash`). -/

namespace Epoch

/-- `Epoch.COMMIT_DURATION` in `chain/dag.py`. -/
def COMMIT_DURATION : Nat := 2

/-- `Epoch.REVEAL_DURATION` in `chain/dag.py`. -/
def REVEAL_DURATION : Nat := 2

/-- `Epoch.PARTIAL_DURATION` in `chain/dag.py`. -/
def PARTIAL_DURATION : Nat := 2

end Epoch

namespace Dag

/-- `Dag.get_era_duration`: the sum of the three phase durations. -/
def get_era_duration : Nat :=
  Epoch.COMMIT_DURATION + Epoch.REVEAL_DURATION + Epoch.PARTIAL_DURATION

/-- `Dag.get_era_number` from `chain/dag.py`: returns `0` for the genesis
timeslot and `n / era_duration + 1` otherwise (the source comment reads
"because genesis block is last block of era zero"). -/
def get_era_number (current_block_number : Nat) : Nat :=
  if current_block_number = 0 then 0
  else current_block_number / get_era_duration + 1

/-- The era-number function as the claim states it: for `n ≥ 1`, era 1 is
timeslots `1 … era_duration`, era 2 the next `era_duration` timeslots, and
so on, i.e. `(n - 1) / era_duration + 1`. -/
def claimed_era_number (n : Nat) : Nat :=
  if n = 0 then 0 else (n - 1) / get_era_duration + 1

/-- The block number read by `Dag.get_era_hash` as the era identifier: the
source names it `previous_era_last_block_number` and computes
`get_era_duration() * (current_era_number - 1)`, i.e. it treats this
timeslot as the last block of era `current_era_number - 1`. -/
def previous_era_last_block_number (current_era_number : Nat) : Nat :=
  get_era_duration * (current_era_number - 1)

end Dag

/-- C1: the era-number function of `chain/dag.py` disagrees with the claim at
timeslot `era_duration = 6`: the code returns `6 / 6 + 1 = 2` while the claim
(era 1 comprises timeslots 1 through `era_duration`) requires `1`.  Moreover
`Dag.get_era_hash` in the same file reads the block at timeslot 6 as the last
block of era 1 (`previous_era_last_block_number 2 = 6`), which contradicts
`get_era_number 6 = 2`: the code is internally inconsistent and the claim
matches the intended partition. -/
theorem c1_get_era_number_bug_at_era_boundary :
    Dag.get_era_number 6 = 2 ∧
    Dag.claimed_era_number 6 = 1 ∧
    Dag.previous_era_last_block_number 2 = 6 ∧
    Dag.get_era_number (Dag.previous_era_last_block_number 2) ≠ 2 - 1 := by
  decide

/-! ## Conflict watcher from `chain/conflict_watcher.py`. -/

/-- State of `ConflictWatcher`: `pubkeys_by_epochs` is the nested dictionary
`epoch number : public_key : block hashes list` (a missing key reads as `[]`)
and `blocks` is `block hash : (public key, epoch_number)`. -/
structure ConflictWatcher where
  pubkeys_by_epochs : Nat → PubKey → List Hash
  blocks : Hash → Option (PubKey × Nat)

namespace ConflictWatcher

/-- A freshly constructed `ConflictWatcher` (empty dictionaries). -/
def init : ConflictWatcher :=
  { pubkeys_by_epochs := fun _ _ => [], blocks := fun _ => none }

/-- `ConflictWatcher.on_new_block_by_validator`: record
`blocks[block_hash] = (public_key, epoch_number)` and append `block_hash` to
`pubkeys_by_epochs[epoch_number][public_key]`. -/
def on_new_block_by_validator (w : ConflictWatcher) (block_hash : Hash)
    (epoch_number : Nat) (public_key : PubKey) : ConflictWatcher :=
  { blocks := fun h => if h = block_hash then some (public_key, epoch_number) else w.blocks h,
    pubkeys_by_epochs := fun e p =>
      if e = epoch_number ∧ p = public_key
      then w.pubkeys_by_epochs e p ++ [block_hash]
      else w.pubkeys_by_epochs e p }

/-- `ConflictWatcher.get_conflicts_by_pubkey`: reads the whole recorded list
for `(epoch_number, pubkey)` and returns `None` exactly when its length is 1,
otherwise the list itself (the queried block's own hash included). -/
def get_conflicts_by_pubkey (w : ConflictWatcher) (pubkey : PubKey)
    (epoch_number : Nat) : Option (List Hash) :=
  let conflicts := w.pubkeys_by_epochs epoch_number pubkey
  if conflicts.length = 1 then none else some conflicts

/-- `ConflictWatcher.get_conflicts_by_block`: look up the signer and epoch of
`block_hash` and delegate.  The Python code raises `KeyError` on a hash that
was never recorded; this total variant maps that case to `none` and its
theorems (C3) restrict themselves to recorded hashes; the crash itself is
modelled by `get_conflicts_by_block_checked` below. -/
def get_conflicts_by_block (w : ConflictWatcher) (block_hash : Hash) :
    Option (List Hash) :=
  match w.blocks block_hash with
  | some (pubkey, epoch_number) => w.get_conflicts_by_pubkey pubkey epoch_number
  | none => none

/-- `get_conflicts_by_block`, crash-aware: its first statement is
`self.blocks[block_hash]`, which raises `KeyError` when `block_hash` was
never recorded.  The outer `none` models that raise; a recorded hash yields
`some` of the query result (`none` inside still meaning "no conflicts"). -/
def get_conflicts_by_block_checked (w : ConflictWatcher) (block_hash : Hash) :
    Option (Option (List Hash)) :=
  match w.blocks block_hash with
  | some (pubkey, epoch_number) => some (w.get_conflicts_by_pubkey pubkey epoch_number)
  | none => none

end ConflictWatcher

/-- One `on_new_block_by_validator` call, as data. -/
structure BlockEvent where
  block_hash : Hash
  epoch_number : Nat
  public_key : PubKey

/-- Replay a sequence of `on_new_block_by_validator` calls on a fresh watcher. -/
def ConflictWatcher.applyEvents (events : List BlockEvent) : ConflictWatcher :=
  events.foldl
    (fun w e => w.on_new_block_by_validator e.block_hash e.epoch_number e.public_key)
    ConflictWatcher.init

/-- The hashes validator `pubkey` produced in epoch `epoch_number` over a run
of recorded events, in order. -/
def producedHashes (events : List BlockEvent) (epoch_number : Nat)
    (pubkey : PubKey) : List Hash :=
  (events.filter fun e => e.epoch_number == epoch_number && e.public_key == pubkey).map
    (fun e => e.block_hash)

theorem ConflictWatcher.applyEvents_pubkeys_by_epochs (events : List BlockEvent)
    (e : Nat) (p : PubKey) :
    (ConflictWatcher.applyEvents events).pubkeys_by_epochs e p =
      producedHashes events e p := by
  suffices h : ∀ w : ConflictWatcher,
      (events.foldl
        (fun w ev => w.on_new_block_by_validator ev.block_hash ev.epoch_number ev.public_key)
        w).pubkeys_by_epochs e p =
        w.pubkeys_by_epochs e p ++ producedHashes events e p by
    simpa [ConflictWatcher.applyEvents, ConflictWatcher.init] using h ConflictWatcher.init
  induction events with
  | nil => intro w; simp [producedHashes]
  | cons ev evs ih =>
    intro w
    rw [List.foldl_cons, ih]
    by_cases hc : ev.epoch_number = e ∧ ev.public_key = p
    · have hb : (ev.epoch_number == e && ev.public_key == p) = true := by
        simp [hc.1, hc.2]
      simp [ConflictWatcher.on_new_block_by_validator, producedHashes,
        List.filter_cons, hb, hc.1, hc.2, List.append_assoc]
    · have hb : (ev.epoch_number == e && ev.public_key == p) = false := by
        rcases Decidable.not_and_iff_or_not.mp hc with h1 | h1 <;> simp [h1]
      have harm : ¬ (e = ev.epoch_number ∧ p = ev.public_key) := by
        intro hand; exact hc ⟨hand.1.symm, hand.2.symm⟩
      simp [ConflictWatcher.on_new_block_by_validator, producedHashes,
        List.filter_cons, hb, harm]

theorem ConflictWatcher.foldl_blocks_cases (events : List BlockEvent)
    (h : Hash) (p : PubKey) (e : Nat) :
    ∀ w : ConflictWatcher,
      (events.foldl
        (fun w ev => w.on_new_block_by_validator ev.block_hash ev.epoch_number ev.public_key)
        w).blocks h = some (p, e) →
      h ∈ producedHashes events e p ∨ w.blocks h = some (p, e) := by
  induction events with
  | nil => intro w hw; exact Or.inr hw
  | cons ev evs ih =>
    intro w hw
    rw [List.foldl_cons] at hw
    rcases ih (w.on_new_block_by_validator ev.block_hash ev.epoch_number ev.public_key) hw
      with hmem | hbase
    · left
      have : producedHashes evs e p ⊆ producedHashes (ev :: evs) e p := by
        simp only [producedHashes, List.filter_cons]
        by_cases hb : (ev.epoch_number == e && ev.public_key == p) = true
        · rw [if_pos hb]; intro x hx; simp only [List.map_cons]
          exact List.mem_cons_of_mem _ hx
        · rw [if_neg hb]; intro x hx; exact hx
      exact this hmem
    · simp only [ConflictWatcher.on_new_block_by_validator] at hbase
      by_cases hh : h = ev.block_hash
      · rw [if_pos hh] at hbase
        simp only [Option.some.injEq, Prod.mk.injEq] at hbase
        obtain ⟨hp, he⟩ := hbase
        left
        simp [producedHashes, List.filter_cons, hp, he, hh]
      · rw [if_neg hh] at hbase
        exact Or.inr hbase

theorem ConflictWatcher.applyEvents_blocks_mem (events : List BlockEvent)
    (h : Hash) (p : PubKey) (e : Nat)
    (hrec : (ConflictWatcher.applyEvents events).blocks h = some (p, e)) :
    h ∈ producedHashes events e p := by
  rcases ConflictWatcher.foldl_blocks_cases events h p e ConflictWatcher.init
      (by simpa [ConflictWatcher.applyEvents] using hrec) with hmem | hinit
  · exact hmem
  · simp [ConflictWatcher.init] at hinit

/-- C3 (corrected): for a recorded block hash `h` signed by `p` in epoch `e`,
`get_conflicts_by_block` returns the *full* list of hashes `p` produced in
epoch `e` — `h` itself included — whenever that list has length other than 1,
and returns nothing when `h` is the only block `p` produced in `e`. -/
theorem c3_conflicts_query_full_list (events : List BlockEvent) (h : Hash)
    (p : PubKey) (e : Nat)
    (hrec : (ConflictWatcher.applyEvents events).blocks h = some (p, e)) :
    h ∈ producedHashes events e p ∧
    (ConflictWatcher.applyEvents events).get_conflicts_by_block h =
      (if (producedHashes events e p).length = 1 then none
       else some (producedHashes events e p)) := by
  refine ⟨ConflictWatcher.applyEvents_blocks_mem events h p e hrec, ?_⟩
  simp [ConflictWatcher.get_conflicts_by_block, hrec,
    ConflictWatcher.get_conflicts_by_pubkey,
    ConflictWatcher.applyEvents_pubkeys_by_epochs]

/-- Witness for `c3_conflicts_query_full_list`: validator `7` signs blocks
`1` and `2` in epoch `0`. -/
theorem c3_conflicts_query_full_list_witness :
    (ConflictWatcher.applyEvents [⟨1, 0, 7⟩, ⟨2, 0, 7⟩]).blocks 1 = some (7, 0) ∧
    (1 ∈ producedHashes [⟨1, 0, 7⟩, ⟨2, 0, 7⟩] 0 7 ∧
     (ConflictWatcher.applyEvents [⟨1, 0, 7⟩, ⟨2, 0, 7⟩]).get_conflicts_by_block 1 =
       (if (producedHashes [⟨1, 0, 7⟩, ⟨2, 0, 7⟩] 0 7).length = 1 then none
        else some (producedHashes [⟨1, 0, 7⟩, ⟨2, 0, 7⟩] 0 7))) :=
  ⟨by decide, c3_conflicts_query_full_list [⟨1, 0, 7⟩, ⟨2, 0, 7⟩] 1 7 0 (by decide)⟩

/-- C3 counterexample: validator `7` signs blocks `1` and `2` in epoch `0`.
The claim says the conflicts query for hash `1` returns exactly the hashes
*other than* `1`, i.e. `[2]`; the code returns the whole list `[1, 2]`,
which contains the queried hash itself. -/
theorem c3_counterexample_result_contains_queried_hash :
    (ConflictWatcher.applyEvents [⟨1, 0, 7⟩, ⟨2, 0, 7⟩]).blocks 1 = some (7, 0) ∧
    (ConflictWatcher.applyEvents [⟨1, 0, 7⟩, ⟨2, 0, 7⟩]).get_conflicts_by_block 1 =
      some [1, 2] ∧
    (ConflictWatcher.applyEvents [⟨1, 0, 7⟩, ⟨2, 0, 7⟩]).get_conflicts_by_block 1 ≠
      some [2] := by
  decide

/-! ## `ConflictWatcher.find_conflicts_in_between` (claim C2). -/

/-- The slice of the DAG interface that `find_conflicts_in_between` reads.
Modelled from the spec: the newer `chain/dag.py` consumed by
`chain/conflict_watcher.py` is not under `src/`; per the spec (sections 3 and
4.3) the DAG indexes blocks by hash and by timeslot, so `get_block_number`
maps a block hash to the timeslot it was inserted under and
`blocks_by_number` lists the blocks of a timeslot (represented here by their
hashes, since the watcher immediately applies `get_hash` to each one). -/
structure DagView where
  get_block_number : Hash → Nat
  blocks_by_number : Nat → List Hash

/-- The loop body of `find_conflicts_in_between`, acting on the accumulator
`(explicit_conflicts, candidate_conflicts)`: retrieve the conflicts of
`block` — `KeyError` on an unrecorded hash aborts the whole call, so the
accumulator lives in `Option` and `none`, once produced, propagates — skip
if falsy, split on `resolved_earlier` (a conflict strictly before the
common ancestor), collect the conflicts inside
`[common_ancestor_number, latest_top_number]`. -/
def conflictFoldStep (w : ConflictWatcher) (dag : DagView)
    (common_ancestor_number latest_top_number : Nat)
    (acc : Option (List Hash × List (List Hash))) (block : Hash) :
    Option (List Hash × List (List Hash)) :=
  match acc with
  | none => none
  | some acc =>
    match w.get_conflicts_by_block_checked block with
    | none => none
    | some conflicts =>
      match conflicts with
      | none => some acc
      | some cs =>
        if cs = [] then some acc
        else
          let resolved_earlier :=
            cs.any fun c => decide (dag.get_block_number c < common_ancestor_number)
          let inside_merge_conflicts :=
            cs.filter fun c =>
              decide (common_ancestor_number ≤ dag.get_block_number c ∧
                dag.get_block_number c ≤ latest_top_number)
          if resolved_earlier then some (acc.1 ++ inside_merge_conflicts, acc.2)
          else some (acc.1, acc.2 ++ [inside_merge_conflicts])

/-- `ConflictWatcher.find_conflicts_in_between`: walk every block whose
timeslot lies in `range(common_ancestor_number, latest_top_number + 1)` and
fold `conflictFoldStep` over them, starting from empty `explicit_conflicts`
and `candidate_conflicts`.  The result is `none` when the walk reaches a
block the watcher never recorded — in Python the `KeyError` from
`get_conflicts_by_block` aborts the call.  (`latest_top_number` is `max` of
the top timeslots; the Python `max` requires `tops` to be non-empty, which
the theorems below assume.) -/
def ConflictWatcher.find_conflicts_in_between (w : ConflictWatcher)
    (dag : DagView) (tops : List Hash) (common_ancestor : Hash) :
    Option (List Hash × List (List Hash)) :=
  let common_ancestor_number := dag.get_block_number common_ancestor
  let tops_numbers := tops.map dag.get_block_number
  let latest_top_number := tops_numbers.foldr max 0
  let merge_range :=
    List.range' common_ancestor_number (latest_top_number + 1 - common_ancestor_number)
  let all_merge_blocks := merge_range.flatMap dag.blocks_by_number
  all_merge_blocks.foldl
    (conflictFoldStep w dag common_ancestor_number latest_top_number) (some ([], []))

/-! ### C2: the claim's description of `find_conflicts_in_between`. -/

/-- Blocks whose timeslot lies in the inclusive window from the common
ancestor's timeslot to the maximum top timeslot. -/
def mergeWindowBlocks (dag : DagView) (tops : List Hash)
    (common_ancestor : Hash) : List Hash :=
  let anc := dag.get_block_number common_ancestor
  let latest := (tops.map dag.get_block_number).foldr max 0
  (List.range' anc (latest + 1 - anc)).flatMap dag.blocks_by_number

/-- The conflicts the watcher has recorded for block `b` (empty when it has
none). -/
def recordedConflicts (w : ConflictWatcher) (b : Hash) : List Hash :=
  (w.get_conflicts_by_block b).getD []

/-- Whether block `b` has at least one conflict at a timeslot strictly below
the ancestor's. -/
def hasEarlierConflict (w : ConflictWatcher) (dag : DagView)
    (common_ancestor_number : Nat) (b : Hash) : Bool :=
  (recordedConflicts w b).any fun c =>
    decide (dag.get_block_number c < common_ancestor_number)

/-- The conflicts of block `b` falling inside the window
`[common_ancestor_number, latest_top_number]`; conflicts strictly above the
maximum top timeslot (or strictly below the ancestor) are not included. -/
def windowConflicts (w : ConflictWatcher) (dag : DagView)
    (common_ancestor_number latest_top_number : Nat) (b : Hash) : List Hash :=
  (recordedConflicts w b).filter fun c =>
    decide (common_ancestor_number ≤ dag.get_block_number c ∧
      dag.get_block_number c ≤ latest_top_number)

/-- Per the claim: the explicit conflicts are the in-window conflicts of every
window block that has recorded conflicts and also has at least one conflict
strictly below the ancestor's timeslot. -/
def explicitConflictsSpec (w : ConflictWatcher) (dag : DagView)
    (tops : List Hash) (common_ancestor : Hash) : List Hash :=
  let anc := dag.get_block_number common_ancestor
  let latest := (tops.map dag.get_block_number).foldr max 0
  (mergeWindowBlocks dag tops common_ancestor).flatMap fun b =>
    if !(recordedConflicts w b).isEmpty && hasEarlierConflict w dag anc b
    then windowConflicts w dag anc latest b
    else []

/-- Per the claim: each window block with recorded conflicts and no conflict
strictly below the ancestor's timeslot contributes its in-window conflicts as
one candidate group. -/
def candidateGroupsSpec (w : ConflictWatcher) (dag : DagView)
    (tops : List Hash) (common_ancestor : Hash) : List (List Hash) :=
  let anc := dag.get_block_number common_ancestor
  let latest := (tops.map dag.get_block_number).foldr max 0
  ((mergeWindowBlocks dag tops common_ancestor).filter fun b =>
    !(recordedConflicts w b).isEmpty && !hasEarlierConflict w dag anc b).map
    (windowConflicts w dag anc latest)

theorem ConflictWatcher.checked_eq_of_recorded (w : ConflictWatcher) (b : Hash)
    (h : (w.blocks b).isSome = true) :
    w.get_conflicts_by_block_checked b = some (w.get_conflicts_by_block b) := by
  cases hb : w.blocks b with
  | none => simp [hb] at h
  | some pe =>
    obtain ⟨p, e⟩ := pe
    simp [ConflictWatcher.get_conflicts_by_block_checked,
      ConflictWatcher.get_conflicts_by_block, hb]

theorem conflictFoldStep_foldl (w : ConflictWatcher) (dag : DagView)
    (anc latest : Nat) (bs : List Hash) :
    ∀ acc : List Hash × List (List Hash),
      (∀ b ∈ bs, (w.blocks b).isSome = true) →
      bs.foldl (conflictFoldStep w dag anc latest) (some acc) =
        some (acc.1 ++ bs.flatMap (fun b =>
            if !(recordedConflicts w b).isEmpty && hasEarlierConflict w dag anc b
            then windowConflicts w dag anc latest b else []),
          acc.2 ++ (bs.filter fun b =>
            !(recordedConflicts w b).isEmpty && !hasEarlierConflict w dag anc b).map
            (windowConflicts w dag anc latest)) := by
  induction bs with
  | nil => intro acc _; simp
  | cons b rest ih =>
    intro acc hall
    have hb := hall b (List.mem_cons_self b rest)
    have hrest : ∀ x ∈ rest, (w.blocks x).isSome = true := fun x hx =>
      hall x (List.mem_cons_of_mem b hx)
    have hchk := ConflictWatcher.checked_eq_of_recorded w b hb
    rw [List.foldl_cons]
    cases hcb : w.get_conflicts_by_block b with
    | none =>
      have hstep : conflictFoldStep w dag anc latest (some acc) b = some acc := by
        simp [conflictFoldStep, hchk, hcb]
      rw [hstep, ih acc hrest]
      simp [recordedConflicts, hcb, List.filter_cons]
    | some cs =>
      by_cases hnil : cs = []
      · subst hnil
        have hstep : conflictFoldStep w dag anc latest (some acc) b = some acc := by
          simp [conflictFoldStep, hchk, hcb]
        rw [hstep, ih acc hrest]
        simp [recordedConflicts, hcb, List.filter_cons]
      · have hne : (recordedConflicts w b).isEmpty = false := by
          simp [recordedConflicts, hcb, List.isEmpty_iff, hnil]
        have hne2 : ¬ recordedConflicts w b = [] := by
          intro hemp
          rw [hemp] at hne
          simp at hne
        by_cases hre : (cs.any fun c => decide (dag.get_block_number c < anc)) = true
        · have hre2 : hasEarlierConflict w dag anc b = true := by
            simp only [hasEarlierConflict, recordedConflicts, hcb, Option.getD_some]
            exact hre
          have hstep : conflictFoldStep w dag anc latest (some acc) b =
              some (acc.1 ++ windowConflicts w dag anc latest b, acc.2) := by
            simp [conflictFoldStep, hchk, hcb, hnil, hre,
              windowConflicts, recordedConflicts]
          rw [hstep, ih _ hrest]
          simp [List.flatMap_cons, List.filter_cons, hne, hne2, hre2,
            List.append_assoc]
        · have hre2 : hasEarlierConflict w dag anc b = false := by
            simp only [hasEarlierConflict, recordedConflicts, hcb, Option.getD_some]
            exact Bool.not_eq_true _ ▸ (by simpa using hre)
          have hstep : conflictFoldStep w dag anc latest (some acc) b =
              some (acc.1, acc.2 ++ [windowConflicts w dag anc latest b]) := by
            simp [conflictFoldStep, hchk, hcb, hnil, hre,
              windowConflicts, recordedConflicts]
          rw [hstep, ih _ hrest]
          simp [List.flatMap_cons, List.filter_cons, hne, hne2, hre2,
            List.append_assoc]

/-- C2: when every block of the merge window has been recorded with the
watcher — on an unrecorded one the Python code raises `KeyError` at
`self.blocks[block_hash]` instead, modelled as the `none` result —
`find_conflicts_in_between` returns exactly the pair described by the
claim: the explicit conflicts (in-window conflicts of window blocks that
also conflict strictly before the ancestor) and the candidate groups (one
group of in-window conflicts per remaining window block with recorded
conflicts); conflicts strictly above the maximum top timeslot are ignored.
`tops` must be non-empty (the Python `max` call requires it). -/
theorem c2_find_conflicts_in_between_spec (w : ConflictWatcher) (dag : DagView)
    (tops : List Hash) (common_ancestor : Hash) (_htops : tops ≠ [])
    (hrec : ∀ b ∈ mergeWindowBlocks dag tops common_ancestor,
      (w.blocks b).isSome = true) :
    w.find_conflicts_in_between dag tops common_ancestor =
      some (explicitConflictsSpec w dag tops common_ancestor,
        candidateGroupsSpec w dag tops common_ancestor) := by
  have hrec2 : ∀ b ∈ (List.range' (dag.get_block_number common_ancestor)
      ((tops.map dag.get_block_number).foldr max 0 + 1 -
        dag.get_block_number common_ancestor)).flatMap dag.blocks_by_number,
      (w.blocks b).isSome = true := fun b hbmem => hrec b hbmem
  rw [ConflictWatcher.find_conflicts_in_between]
  rw [conflictFoldStep_foldl _ _ _ _ _ ([], []) hrec2]
  simp [explicitConflictsSpec, candidateGroupsSpec, mergeWindowBlocks]

/-- A concrete DAG for the C2 witness: block 1 at timeslot 1 (the common
ancestor), blocks 2 and 3 at timeslot 2 (an equivocating pair), block 4 at
timeslot 3. -/
def c2DagExample : DagView :=
  { get_block_number := fun h =>
      if h = 1 then 1 else if h = 2 then 2 else if h = 3 then 2
      else if h = 4 then 3 else 0,
    blocks_by_number := fun n =>
      if n = 1 then [1] else if n = 2 then [2, 3] else if n = 3 then [4] else [] }

/-- Witness for `c2_find_conflicts_in_between_spec` on `c2DagExample` with
tops `[3, 4]` and common ancestor `1`: every window block (1, 2, 3, 4) is
recorded with the watcher, and the call returns the claimed pair. -/
theorem c2_find_conflicts_in_between_spec_witness :
    (([3, 4] : List Hash) ≠ [] ∧
     ∀ b ∈ mergeWindowBlocks c2DagExample [3, 4] 1,
       (((ConflictWatcher.applyEvents
           [⟨1, 1, 7⟩, ⟨2, 1, 8⟩, ⟨3, 1, 8⟩, ⟨4, 1, 9⟩]).blocks b).isSome) = true) ∧
    (ConflictWatcher.applyEvents
        [⟨1, 1, 7⟩, ⟨2, 1, 8⟩, ⟨3, 1, 8⟩, ⟨4, 1, 9⟩]).find_conflicts_in_between
        c2DagExample [3, 4] 1 =
      some (explicitConflictsSpec
          (ConflictWatcher.applyEvents [⟨1, 1, 7⟩, ⟨2, 1, 8⟩, ⟨3, 1, 8⟩, ⟨4, 1, 9⟩])
          c2DagExample [3, 4] 1,
        candidateGroupsSpec
          (ConflictWatcher.applyEvents [⟨1, 1, 7⟩, ⟨2, 1, 8⟩, ⟨3, 1, 8⟩, ⟨4, 1, 9⟩])
          c2DagExample [3, 4] 1) :=
  ⟨⟨by decide, by decide⟩,
   c2_find_conflicts_in_between_spec
     (ConflictWatcher.applyEvents [⟨1, 1, 7⟩, ⟨2, 1, 8⟩, ⟨3, 1, 8⟩, ⟨4, 1, 9⟩])
     c2DagExample [3, 4] 1 (by decide) (by decide)⟩

/-- On a state where a window block was never recorded — here a fresh
watcher walking a window that contains block 1 — the call aborts with the
`KeyError` (`none`), rather than classifying. -/
theorem find_conflicts_in_between_aborts_on_unrecorded :
    ConflictWatcher.init.find_conflicts_in_between c2DagExample [1] 1 = none := by
  decide


/-! ## The DAG of `chain/dag.py` (claim C4). -/

/-- An unsigned block as in `chain/block.py`: parent hashes and a unix
timestamp (the further payload fields play no role in `add_signed_block`). -/
structure Block where
  prev_hashes : List Hash
  timestamp : Nat
deriving DecidableEq

/-- `block.get_hash().digest()`: SHA-256 over the canonical packing, embedded
as an injective pairing of the block's fields. -/
def Block.get_hash (b : Block) : Hash :=
  Nat.pair b.timestamp (Nat.pair b.prev_hashes.length
    (b.prev_hashes.foldr (fun h acc => Nat.pair h acc) 0))

/-- A signed block: a block plus its signature (`chain/signed_block.py`). -/
structure SignedBlock where
  block : Block
  signature : Nat
deriving DecidableEq

/-- The two indices of `Dag` from `chain/dag.py`: `blocks_by_hash` (a dict,
assignment overwrites) and `blocks_by_number` (dict of lists; a missing key
reads as `[]`, matching the `if index in ... else [block]` branches). -/
structure DagState where
  blocks_by_hash : Hash → Option SignedBlock
  blocks_by_number : Nat → List SignedBlock

/-- `Dag.add_signed_block`: `blocks_by_hash[block_hash] = block` and append
`block` to `blocks_by_number[index]`. -/
def DagState.add_signed_block (d : DagState) (index : Nat) (block : SignedBlock) :
    DagState :=
  let block_hash := block.block.get_hash
  { blocks_by_hash := fun h => if h = block_hash then some block else d.blocks_by_hash h,
    blocks_by_number := fun i =>
      if i = index then d.blocks_by_number i ++ [block] else d.blocks_by_number i }

/-- `Dag.genesis_block`: no parents, timestamp = genesis creation time. -/
def DagState.genesis_block (genesis_creation_time : Nat) : Block :=
  { prev_hashes := [], timestamp := genesis_creation_time }

/-- `Dag.__init__`: start from empty indices and insert the signed genesis
block at timeslot 0 (its signature left unset, embedded as 0). -/
def DagState.init (genesis_creation_time : Nat) : DagState :=
  DagState.add_signed_block
    { blocks_by_hash := fun _ => none, blocks_by_number := fun _ => [] }
    0 { block := DagState.genesis_block genesis_creation_time, signature := 0 }

/-- The signed block used by the C4 counterexample: a child of genesis at
timeslot 1. -/
def c4Block : SignedBlock :=
  { block := { prev_hashes := [(DagState.genesis_block 0).get_hash], timestamp := 5 },
    signature := 0 }

/-- C4 counterexample: inserting the same signed block twice under the same
timeslot is *not* idempotent — the per-timeslot index then holds the pair
`(1, hash)` twice, so the claimed uniqueness of `(timeslot, hash)` fails. -/
theorem c4_counterexample_duplicate_insertion :
    (((DagState.init 0).add_signed_block 1 c4Block).add_signed_block 1 c4Block).blocks_by_number 1 =
      [c4Block, c4Block] ∧
    ((DagState.init 0).add_signed_block 1 c4Block).blocks_by_number 1 = [c4Block] ∧
    (((DagState.init 0).add_signed_block 1 c4Block).add_signed_block 1
        c4Block).blocks_by_number 1 ≠
      ((DagState.init 0).add_signed_block 1 c4Block).blocks_by_number 1 := by
  refine ⟨rfl, rfl, ?_⟩
  intro h
  simp [DagState.add_signed_block, DagState.init] at h

/-- C4 (corrected): `add_signed_block` appends unconditionally, so inserting
the same signed block twice under the same timeslot yields two entries for
the pair; the indices are append-only — the per-timeslot list is only ever
extended and a hash key, once present, stays present. -/
theorem c4_add_signed_block_append_only (d : DagState) (index i : Nat)
    (b : SignedBlock) (h : Hash) :
    (d.add_signed_block index b).blocks_by_number i =
      d.blocks_by_number i ++ (if i = index then [b] else []) ∧
    ((d.add_signed_block index b).blocks_by_hash h).isSome =
      ((d.blocks_by_hash h).isSome || (h == b.block.get_hash)) := by
  constructor
  · by_cases hi : i = index <;> simp [DagState.add_signed_block, hi]
  · by_cases hh : h = b.block.get_hash <;> simp [DagState.add_signed_block, hh]

/-! ## The node step loop of `node/node.py` (claims C6 and C7).

The node's interactions with `Epoch`, `Permissions` and the DAG inside one
tick are read-only queries; they are supplied per tick as oracle inputs.
Modelled from the spec where the queried modules (`chain/epoch.py`,
`node/permissions.py`, `node/behaviour.py`) are not under `src/`: the default
`Behaviour()` is honest (all malicious counters zero), `sign_allowed` is the
result of the sign-permission loop over the current epoch hashes, and
`gossip_allowed` the result of the gossip-permission loop for the previous
timeslot. -/

/-- Per-tick environment of `Node.step`. -/
structure TickInput where
  /-- `epoch.get_current_timeframe_block_number()` at this tick. -/
  current_block_number : Nat
  /-- `previous_timeslot_number in dag.blocks_by_number` at this tick. -/
  prev_in_dag : Bool
  /-- the gossip-permission loop grants this node negative gossip for the
  previous timeslot under some current epoch hash. -/
  gossip_allowed : Bool
  /-- the sign-permission loop elects this node for the current timeslot
  under some current epoch hash. -/
  sign_allowed : Bool

/-- The signing- and gossip-relevant state of `Node`. -/
structure NodeState where
  last_expected_timeslot : Nat
  last_signed_block_number : Nat
  tried_to_sign_current_block : Bool
  /-- block numbers under which `sign_block` inserted a signed block into the
  local DAG (most recent first). -/
  produced_block_numbers : List Nat
  /-- block numbers of the `NegativeGossipTransaction`s this node broadcast
  (most recent first). -/
  negative_gossip_numbers : List Nat

namespace Node

/-- `Node.__init__`: counters start at 0, the latch unset, nothing produced. -/
def initial : NodeState :=
  { last_expected_timeslot := 0, last_signed_block_number := 0,
    tried_to_sign_current_block := false, produced_block_numbers := [],
    negative_gossip_numbers := [] }

/-- `Node.try_to_send_negative_gossip`: if the previous timeslot has no block
in the local DAG, broadcast a negative gossip when permitted and return
`True` (wait); otherwise return `False`. -/
def try_to_send_negative_gossip (s : NodeState) (i : TickInput)
    (previous_timeslot_number : Nat) : NodeState × Bool :=
  if !i.prev_in_dag then
    (if i.gossip_allowed then
       { s with negative_gossip_numbers :=
           previous_timeslot_number :: s.negative_gossip_numbers }
     else s,
     true)
  else (s, false)

/-- `Node.handle_timeslot_changed`: update `last_expected_timeslot` and try
to send negative gossip about the previous timeslot (the honest default has
no maliciously delayed block to broadcast). -/
def handle_timeslot_changed (s : NodeState) (i : TickInput)
    (previous_timeslot_number current_timeslot_number : Nat) : NodeState × Bool :=
  let s := { s with last_expected_timeslot := current_timeslot_number }
  try_to_send_negative_gossip s i previous_timeslot_number

/-- `Node.try_to_sign_block` for the honest default behaviour: when elected
and `last_signed_block_number < current_block_number`, record the new
`last_signed_block_number` and run `sign_block`, which inserts exactly one
signed block under `current_block_number`; otherwise skip the extra
broadcast in the same timeslot. -/
def try_to_sign_block (s : NodeState) (i : TickInput)
    (current_block_number : Nat) : NodeState :=
  if i.sign_allowed then
    if s.last_signed_block_number < current_block_number then
      { s with last_signed_block_number := current_block_number,
               produced_block_numbers := current_block_number :: s.produced_block_numbers }
    else s
  else s

/-- `Node.step` (honest default behaviour): on a timeslot transition reset
the signing latch, run `handle_timeslot_changed` and return early when it
asks to wait; otherwise attempt to sign once per timeslot. -/
def step (s : NodeState) (i : TickInput) : NodeState :=
  let current_block_number := i.current_block_number
  if current_block_number ≠ s.last_expected_timeslot then
    let s1 := { s with tried_to_sign_current_block := false }
    let r := handle_timeslot_changed s1 i s.last_expected_timeslot current_block_number
    if r.2 then r.1
    else if !r.1.tried_to_sign_current_block then
      { try_to_sign_block r.1 i current_block_number with
          tried_to_sign_current_block := true }
    else r.1
  else if !s.tried_to_sign_current_block then
    { try_to_sign_block s i current_block_number with
        tried_to_sign_current_block := true }
  else s

/-- A whole run of the step loop from a fresh node. -/
def run (inputs : List TickInput) : NodeState :=
  inputs.foldl step initial

end Node

/-- The signing invariant: every produced block number is bounded by
`last_signed_block_number` and occurs at most once. -/
def SignedOnceInv (produced : List Nat) (last_signed : Nat) : Prop :=
  (∀ t ∈ produced, t ≤ last_signed) ∧ (∀ t, produced.count t ≤ 1)

theorem SignedOnceInv.extend {produced : List Nat} {last_signed c : Nat}
    (h : SignedOnceInv produced last_signed) (hlt : last_signed < c) :
    SignedOnceInv (c :: produced) c := by
  constructor
  · intro t ht
    rcases List.mem_cons.mp ht with rfl | ht
    · exact le_refl t
    · exact le_trans (h.1 t ht) (le_of_lt hlt)
  · intro t
    rw [List.count_cons]
    by_cases htc : t = c
    · subst htc
      have hnot : t ∉ produced := fun hmem => absurd (h.1 t hmem) (by omega)
      rw [List.count_eq_zero.mpr hnot]
      simp
    · have h2 := h.2 t
      have hne : ¬ c = t := fun hh => htc hh.symm
      simp [hne]
      omega

theorem Node.step_preserves_signedOnce (s : NodeState) (i : TickInput)
    (h : SignedOnceInv s.produced_block_numbers s.last_signed_block_number) :
    SignedOnceInv (Node.step s i).produced_block_numbers
      (Node.step s i).last_signed_block_number := by
  unfold Node.step
  by_cases hc : i.current_block_number ≠ s.last_expected_timeslot
  · simp only [if_pos hc]
    cases hp : i.prev_in_dag with
    | false =>
      cases hg : i.gossip_allowed <;>
        simpa [Node.handle_timeslot_changed, Node.try_to_send_negative_gossip,
          hp, hg] using h
    | true =>
      cases hsa : i.sign_allowed with
      | false =>
        simpa [Node.handle_timeslot_changed, Node.try_to_send_negative_gossip,
          Node.try_to_sign_block, hp, hsa] using h
      | true =>
        by_cases hlt : s.last_signed_block_number < i.current_block_number
        · have hext := h.extend hlt
          simpa [Node.handle_timeslot_changed, Node.try_to_send_negative_gossip,
            Node.try_to_sign_block, hp, hsa, hlt] using hext
        · simpa [Node.handle_timeslot_changed, Node.try_to_send_negative_gossip,
            Node.try_to_sign_block, hp, hsa, hlt] using h
  · simp only [if_neg hc]
    cases ht : s.tried_to_sign_current_block with
    | true => simpa [ht] using h
    | false =>
      cases hsa : i.sign_allowed with
      | false => simpa [Node.try_to_sign_block, ht, hsa] using h
      | true =>
        by_cases hlt : s.last_signed_block_number < i.current_block_number
        · have hext := h.extend hlt
          simpa [Node.try_to_sign_block, ht, hsa, hlt] using hext
        · simpa [Node.try_to_sign_block, ht, hsa, hlt] using h

theorem Node.run_signedOnce (inputs : List TickInput) :
    SignedOnceInv (Node.run inputs).produced_block_numbers
      (Node.run inputs).last_signed_block_number := by
  suffices key : ∀ s : NodeState,
      SignedOnceInv s.produced_block_numbers s.last_signed_block_number →
      SignedOnceInv (inputs.foldl Node.step s).produced_block_numbers
        (inputs.foldl Node.step s).last_signed_block_number by
    refine key Node.initial ?_
    exact ⟨fun t ht => absurd ht (List.not_mem_nil t), fun t => by simp [Node.initial]⟩
  induction inputs with
  | nil => intro s hs; exact hs
  | cons i rest ih =>
    intro s hs
    exact ih (Node.step s i) (Node.step_preserves_signedOnce s i hs)

/-- C6: over any sequence of step ticks, an honest node (default behaviour)
inserts at most one signed block with any given current block number `t`,
even when `step` runs several times inside one timeslot. -/
theorem c6_at_most_one_signed_block_per_timeslot (inputs : List TickInput)
    (t : Nat) :
    ((Node.run inputs).produced_block_numbers).count t ≤ 1 :=
  (Node.run_signedOnce inputs).2 t

theorem Node.step_last_expected (s : NodeState) (i : TickInput) :
    (Node.step s i).last_expected_timeslot = i.current_block_number := by
  unfold Node.step
  by_cases hc : i.current_block_number ≠ s.last_expected_timeslot
  · simp only [if_pos hc]
    cases hp : i.prev_in_dag <;> cases hg : i.gossip_allowed <;>
      cases hsa : i.sign_allowed <;>
      by_cases hlt : s.last_signed_block_number < i.current_block_number <;>
      simp [Node.handle_timeslot_changed, Node.try_to_send_negative_gossip,
        Node.try_to_sign_block, hp, hg, hsa, hlt]
  · push_neg at hc
    cases ht : s.tried_to_sign_current_block <;>
      cases hsa : i.sign_allowed <;>
      by_cases hlt : s.last_signed_block_number < s.last_expected_timeslot <;>
      simp [Node.try_to_sign_block, hc, ht, hsa, hlt]

theorem Node.step_negative_gossip (s : NodeState) (i : TickInput) :
    (Node.step s i).negative_gossip_numbers =
      (if i.current_block_number ≠ s.last_expected_timeslot ∧
          i.prev_in_dag = false ∧ i.gossip_allowed = true
       then s.last_expected_timeslot :: s.negative_gossip_numbers
       else s.negative_gossip_numbers) := by
  unfold Node.step
  by_cases hc : i.current_block_number ≠ s.last_expected_timeslot
  · simp only [if_pos hc]
    cases hp : i.prev_in_dag <;> cases hg : i.gossip_allowed <;>
      cases hsa : i.sign_allowed <;>
      by_cases hlt : s.last_signed_block_number < i.current_block_number <;>
      simp [Node.handle_timeslot_changed, Node.try_to_send_negative_gossip,
        Node.try_to_sign_block, hp, hg, hsa, hlt, hc]
  · cases ht : s.tried_to_sign_current_block <;>
      cases hsa : i.sign_allowed <;>
      by_cases hlt : s.last_signed_block_number < i.current_block_number <;>
      simp [Node.try_to_sign_block, hc, ht, hsa, hlt]

theorem Node.step_skips_sign_on_empty_transition (s : NodeState) (i : TickInput)
    (h1 : i.current_block_number ≠ s.last_expected_timeslot)
    (h2 : i.prev_in_dag = false) :
    (Node.step s i).produced_block_numbers = s.produced_block_numbers := by
  unfold Node.step
  simp only [if_pos h1]
  cases hg : i.gossip_allowed <;>
    simp [Node.handle_timeslot_changed, Node.try_to_send_negative_gossip, h2, hg]

/-- The tick sequence a wall clock produces: timeslot numbers never
decrease. -/
def TickChain : Nat → List TickInput → Prop
  | _, [] => True
  | lo, i :: rest => lo ≤ i.current_block_number ∧ TickChain i.current_block_number rest

/-- The gossip invariant: every emitted negative gossip is about a timeslot
strictly before the currently expected one, and no timeslot repeats. -/
def GossipInv (s : NodeState) : Prop :=
  (∀ g ∈ s.negative_gossip_numbers, g < s.last_expected_timeslot) ∧
  s.negative_gossip_numbers.Nodup

theorem Node.step_preserves_gossipInv (s : NodeState) (i : TickInput)
    (hle : s.last_expected_timeslot ≤ i.current_block_number)
    (h : GossipInv s) : GossipInv (Node.step s i) := by
  have hg := Node.step_negative_gossip s i
  have hl := Node.step_last_expected s i
  by_cases hcond : i.current_block_number ≠ s.last_expected_timeslot ∧
      i.prev_in_dag = false ∧ i.gossip_allowed = true
  · rw [if_pos hcond] at hg
    have hlt : s.last_expected_timeslot < i.current_block_number :=
      lt_of_le_of_ne hle (fun he => hcond.1 he.symm)
    constructor
    · intro g hmem
      rw [hg] at hmem
      rw [hl]
      rcases List.mem_cons.mp hmem with rfl | hmem
      · exact hlt
      · exact lt_trans (h.1 g hmem) hlt
    · rw [hg]
      refine List.Nodup.cons ?_ h.2
      intro hmem
      exact absurd (h.1 _ hmem) (lt_irrefl _)
  · rw [if_neg hcond] at hg
    constructor
    · intro g hmem
      rw [hg] at hmem
      rw [hl]
      exact lt_of_lt_of_le (h.1 g hmem) hle
    · rw [hg]; exact h.2

theorem Node.run_gossipInv (inputs : List TickInput) (hchain : TickChain 0 inputs) :
    GossipInv (Node.run inputs) := by
  suffices key : ∀ (l : List TickInput) (s : NodeState),
      GossipInv s → TickChain s.last_expected_timeslot l →
      GossipInv (l.foldl Node.step s) by
    refine key inputs Node.initial ?_ ?_
    · exact ⟨fun g hmem => absurd hmem (List.not_mem_nil g), List.nodup_nil⟩
    · exact hchain
  intro l
  induction l with
  | nil => intro s hs _; exact hs
  | cons i rest ih =>
    intro s hs hchain2
    rw [List.foldl_cons]
    refine ih (Node.step s i) (Node.step_preserves_gossipInv s i hchain2.1 hs) ?_
    rw [Node.step_last_expected]
    exact hchain2.2

/-- C7: along any nondecreasing sequence of tick timeslots, an honest node
broadcasts at most one `NegativeGossipTransaction` about any timeslot `t`;
`step` emits one about the previous timeslot exactly on the tick where a
timeslot transition is detected while that timeslot has no block in the
local DAG and the node holds gossip permission; and on a transition with the
previous timeslot empty the node skips its sign attempt for that tick. -/
theorem c7_negative_gossip_once (inputs : List TickInput) (s : NodeState)
    (i : TickInput) (hchain : TickChain 0 inputs) :
    (∀ t, ((Node.run inputs).negative_gossip_numbers).count t ≤ 1) ∧
    (Node.step s i).negative_gossip_numbers =
      (if i.current_block_number ≠ s.last_expected_timeslot ∧
          i.prev_in_dag = false ∧ i.gossip_allowed = true
       then s.last_expected_timeslot :: s.negative_gossip_numbers
       else s.negative_gossip_numbers) ∧
    (i.current_block_number ≠ s.last_expected_timeslot → i.prev_in_dag = false →
      (Node.step s i).produced_block_numbers = s.produced_block_numbers) := by
  refine ⟨?_, Node.step_negative_gossip s i,
    Node.step_skips_sign_on_empty_transition s i⟩
  intro t
  exact List.nodup_iff_count_le_one.mp (Node.run_gossipInv inputs hchain).2 t

/-- Witness for `c7_negative_gossip_once`: a two-tick run where timeslot 1
passes without a block and the node is gossip-permitted. -/
theorem c7_negative_gossip_once_witness :
    TickChain 0 [⟨1, false, true, true⟩, ⟨2, false, true, true⟩] ∧
    ((∀ t,
        ((Node.run [⟨1, false, true, true⟩, ⟨2, false, true, true⟩]).negative_gossip_numbers).count t ≤ 1) ∧
     (Node.step Node.initial ⟨2, false, true, true⟩).negative_gossip_numbers =
       (if (⟨2, false, true, true⟩ : TickInput).current_block_number ≠
             Node.initial.last_expected_timeslot ∧
           (⟨2, false, true, true⟩ : TickInput).prev_in_dag = false ∧
           (⟨2, false, true, true⟩ : TickInput).gossip_allowed = true
        then Node.initial.last_expected_timeslot :: Node.initial.negative_gossip_numbers
        else Node.initial.negative_gossip_numbers) ∧
     ((⟨2, false, true, true⟩ : TickInput).current_block_number ≠
         Node.initial.last_expected_timeslot →
       (⟨2, false, true, true⟩ : TickInput).prev_in_dag = false →
       (Node.step Node.initial ⟨2, false, true, true⟩).produced_block_numbers =
         Node.initial.produced_block_numbers)) :=
  ⟨by simp [TickChain],
   c7_negative_gossip_once [⟨1, false, true, true⟩, ⟨2, false, true, true⟩]
     Node.initial ⟨2, false, true, true⟩ (by simp [TickChain])⟩

/-! ## Incoming-block handling of `node/node.py` (claim C5).

`Node.handle_block_message` / `Node.process_block_buffer`, specialized to
the state they read and write: the DAG indices, the orphan buffer
`blocks_buffer` and the direct parent requests sent over the network.
Signature verification is abstracted as the `sig_ok` oracle; the two
acceptors live in `verification/block_acceptor.py`, which is not under
`src/`, and are modelled from the spec (section 4.6): the block acceptor
checks that the parents exist and the block's timeslot is unfilled, the
orphan acceptor defers the signer check and refuses only blocks already
buffered. -/

/-- An incoming block, reduced to what the handler inspects: its hash, its
parent hashes and the timeslot resolved from its timestamp. -/
structure HBlock where
  hash : Hash
  prev_hashes : List Hash
  block_number : Nat
deriving DecidableEq

/-- Handler-relevant node state. -/
structure HandlerState where
  /-- keys of `dag.blocks_by_hash`. -/
  dag_hashes : List Hash
  /-- timeslots having at least one block in `dag.blocks_by_number`. -/
  dag_numbers : List Nat
  /-- the orphan buffer `blocks_buffer` (oldest first). -/
  blocks_buffer : List HBlock
  /-- parent hashes requested via `direct_request_block_by_hash`. -/
  parent_requests : List Hash
deriving DecidableEq

/-- Node state right after `__init__`: only the genesis block (hash 0) at
timeslot 0, empty buffer. -/
def HandlerState.afterInit : HandlerState :=
  { dag_hashes := [0], dag_numbers := [0], blocks_buffer := [], parent_requests := [] }

/-- Modelled from the spec (4.6): `BlockAcceptor.check_if_valid` — the
timestamp maps to an unfilled timeslot and the parents exist. -/
def blockAcceptorValid (s : HandlerState) (b : HBlock) : Bool :=
  (b.prev_hashes.all fun p => s.dag_hashes.contains p) &&
    !(s.dag_numbers.contains b.block_number)

/-- Modelled from the spec (4.6): `OrphanBlockAcceptor.check_if_valid` —
defers the signer check; refuses a block already sitting in the buffer. -/
def orphanAcceptorValid (blocks_buffer : List HBlock) (b : HBlock) : Bool :=
  !(blocks_buffer.contains b)

/-- `Node.insert_verified_block`, restricted to the handler state: insert
into both DAG indices (mempool, UTXO and conflict-watcher updates do not
feed back into this handler logic). -/
def HandlerState.insert_verified_block (s : HandlerState) (b : HBlock) :
    HandlerState :=
  { s with dag_hashes := s.dag_hashes ++ [b.hash],
           dag_numbers := s.dag_numbers ++ [b.block_number] }

/-- The body of the `while` loop of `Node.process_block_buffer`, iterated
over the buffer as popped (`list.pop()` removes the *last* element): verify
the popped block's signature and validity; insert on success, otherwise log
and drop it. -/
def processPopped (sig_ok : HBlock → Bool) : List HBlock → HandlerState → HandlerState
  | [], s => s
  | b :: rest, s =>
    processPopped sig_ok rest
      (if sig_ok b && blockAcceptorValid s b then s.insert_verified_block b else s)

/-- `Node.process_block_buffer`: pop every buffered block (last first),
re-attempting acceptance; the buffer is empty afterwards whether or not the
blocks were accepted. -/
def process_block_buffer (sig_ok : HBlock → Bool) (s : HandlerState) :
    HandlerState :=
  { processPopped sig_ok s.blocks_buffer.reverse { s with blocks_buffer := [] } with
      blocks_buffer := [] }

/-- `Node.handle_block_message` for a decodable frame, with
`epoch_end_block = get_epoch_end_block_number(current_epoch)`: mark the
block orphan when some parent is unknown; skip the signer check for
out-of-epoch blocks; accept in-DAG, or buffer, request the unknown parents
from the sender and immediately run `process_block_buffer`. -/
def handle_block_message (sig_ok : HBlock → Bool) (epoch_end_block : Nat)
    (s : HandlerState) (b : HBlock) : HandlerState :=
  let is_orphan_block := b.prev_hashes.any fun p => !(s.dag_hashes.contains p)
  let block_out_of_epoch := decide (epoch_end_block ≤ b.block_number)
  let allowed := block_out_of_epoch || sig_ok b
  if allowed then
    if !is_orphan_block then
      if blockAcceptorValid s b then s.insert_verified_block b else s
    else
      let s1 :=
        if orphanAcceptorValid s.blocks_buffer b then
          { s with blocks_buffer := s.blocks_buffer ++ [b],
                   parent_requests := s.parent_requests ++
                     (b.prev_hashes.filter fun p => !(s.dag_hashes.contains p)) }
        else s
      if !s1.blocks_buffer.isEmpty then process_block_buffer sig_ok s1 else s1
  else s

/-- The orphan block of scenario S4: block `X` (hash 3) at timeslot 2 whose
parent `P` (hash 2) is unknown when it arrives. -/
def c5BlockX : HBlock := { hash := 3, prev_hashes := [2], block_number := 2 }

/-- The parent block of scenario S4: block `P` (hash 2), child of genesis,
at timeslot 1. -/
def c5BlockP : HBlock := { hash := 2, prev_hashes := [0], block_number := 1 }

/-- C5: the code diverges from the claim on scenario S4.  Receiving `X`
(parent `P` unknown) does buffer it and request `P` from the sender, but the
same `handle_block_message` call immediately runs `process_block_buffer`,
which pops `X` and *drops* it when validation fails (its parent is still
missing).  When `P` later arrives it takes the non-orphan path, which never
re-processes the buffer, so afterwards `P` is in the DAG but `X` is not —
the claim requires both to be present with an empty buffer. -/
theorem c5_orphan_buffer_flushed_too_early_and_block_lost :
    (handle_block_message (fun _ => true) 100 HandlerState.afterInit c5BlockX).parent_requests =
      [2] ∧
    (handle_block_message (fun _ => true) 100 HandlerState.afterInit c5BlockX).blocks_buffer =
      [] ∧
    (handle_block_message (fun _ => true) 100
        (handle_block_message (fun _ => true) 100 HandlerState.afterInit c5BlockX)
        c5BlockP).dag_hashes = [0, 2] ∧
    c5BlockX.hash ∉
      (handle_block_message (fun _ => true) 100
        (handle_block_message (fun _ => true) 100 HandlerState.afterInit c5BlockX)
        c5BlockP).dag_hashes ∧
    (handle_block_message (fun _ => true) 100
        (handle_block_message (fun _ => true) 100 HandlerState.afterInit c5BlockX)
        c5BlockP).blocks_buffer = [] := by
  decide

/-! ## Wire codec (claims C8 and C9).

`serialization/serializer.py` is not under `src/`; the field widths are
modelled from the spec (section 6): 64-byte signatures, 33-byte compressed
public keys, 32-byte hashes, u32 big-endian timestamps and counts,
u32-length-prefixed variable-length payloads (encrypted data, private
keys).  In Python a too-short buffer makes the deserializer raise; here it
returns `Except.error`. -/

/-- Raw frames: byte strings as lists of byte values. -/
abbrev Bytes := List Nat

namespace Serializer

/-- `Serializer.write_u32`: 4 bytes, big-endian. -/
def write_u32 (n : Nat) : Bytes :=
  [n / 16777216 % 256, n / 65536 % 256, n / 256 % 256, n % 256]

/-- `Serializer.write_timestamp`: u32 seconds. -/
def write_timestamp (t : Nat) : Bytes := write_u32 t

/-- `Serializer.write_signature`: the fixed 64-byte signature itself. -/
def write_signature (s : Bytes) : Bytes := s

/-- `Serializer.write_encrypted_data`: u32 length prefix then the payload. -/
def write_encrypted_data (d : Bytes) : Bytes := write_u32 d.length ++ d

/-- `Serializer.write_private_key`: u32 length prefix then the key bytes. -/
def write_private_key (k : Bytes) : Bytes := write_u32 k.length ++ k

end Serializer

/-- A `Deserializer` over a raw buffer: the remaining bytes and the number of
bytes consumed so far (`get_len`). -/
structure Deserializer where
  data : Bytes
  len : Nat

namespace Deserializer

/-- Consume exactly `n` bytes, failing (the Python deserializer raises) when
the buffer is too short. -/
def takeBytes (d : Deserializer) (n : Nat) : Except String (Bytes × Deserializer) :=
  if n ≤ d.data.length then .ok (d.data.take n, ⟨d.data.drop n, d.len + n⟩)
  else .error "unexpected end of data"

/-- `Deserializer.parse_signature`: 64 bytes. -/
def parse_signature (d : Deserializer) : Except String (Bytes × Deserializer) :=
  d.takeBytes 64

/-- `Deserializer.parse_pubkey`: 33 bytes. -/
def parse_pubkey (d : Deserializer) : Except String (Bytes × Deserializer) :=
  d.takeBytes 33

/-- `Deserializer.parse_hash`: 32 bytes. -/
def parse_hash (d : Deserializer) : Except String (Bytes × Deserializer) :=
  d.takeBytes 32

/-- Big-endian value of a 4-byte run. -/
def fromBE4 (bs : Bytes) : Nat := bs.foldl (fun acc x => acc * 256 + x) 0

/-- `Deserializer.parse_u32`: 4 bytes, big-endian. -/
def parse_u32 (d : Deserializer) : Except String (Nat × Deserializer) := do
  let (bs, d1) ← d.takeBytes 4
  .ok (fromBE4 bs, d1)

/-- `Deserializer.parse_timestamp`: u32 seconds. -/
def parse_timestamp (d : Deserializer) : Except String (Nat × Deserializer) :=
  d.parse_u32

/-- `Deserializer.parse_encrypted_data`: u32 length prefix, then that many
bytes. -/
def parse_encrypted_data (d : Deserializer) : Except String (Bytes × Deserializer) := do
  let (n, d1) ← d.parse_u32
  d1.takeBytes n

/-- `Deserializer.parse_private_key`: u32 length prefix, then that many
bytes. -/
def parse_private_key (d : Deserializer) : Except String (Bytes × Deserializer) := do
  let (n, d1) ← d.parse_u32
  d1.takeBytes n

/-- `Deserializer.get_len`: bytes consumed so far. -/
def get_len (d : Deserializer) : Nat := d.len

end Deserializer

theorem Deserializer.takeBytes_exact (a r : Bytes) (k n : Nat) (h : n = a.length) :
    Deserializer.takeBytes ⟨a ++ r, k⟩ n = .ok (a, ⟨r, k + n⟩) := by
  subst h
  unfold Deserializer.takeBytes
  rw [if_pos (by simp)]
  simp

theorem Serializer.write_u32_length (n : Nat) : (Serializer.write_u32 n).length = 4 :=
  rfl

theorem Deserializer.fromBE4_write_u32 (n : Nat) (h : n < 4294967296) :
    Deserializer.fromBE4 (Serializer.write_u32 n) = n := by
  simp only [Serializer.write_u32, Deserializer.fromBE4, List.foldl_cons, List.foldl_nil]
  omega

/-! ### `transaction/gossip_transaction.py` and
`transaction/commit_transactions.py` (claim C9). -/

/-- `NegativeGossipTransaction`: signature, sender public key, timestamp and
the asked block number; `len` is set by `parse` to the consumed length. -/
structure NegativeGossipTransaction where
  signature : Bytes
  pubkey : Bytes
  timestamp : Nat
  number_of_block : Nat
  len : Nat
deriving DecidableEq

namespace NegativeGossipTransaction

/-- `NegativeGossipTransaction.pack`. -/
def pack (t : NegativeGossipTransaction) : Bytes :=
  Serializer.write_signature t.signature ++ t.pubkey ++
    Serializer.write_timestamp t.timestamp ++ Serializer.write_u32 t.number_of_block

/-- `NegativeGossipTransaction.parse`. -/
def parse (raw_data : Bytes) : Except String NegativeGossipTransaction := do
  let d : Deserializer := ⟨raw_data, 0⟩
  let (signature, d) ← d.parse_signature
  let (pubkey, d) ← d.parse_pubkey
  let (timestamp, d) ← d.parse_timestamp
  let (number_of_block, d) ← d.parse_u32
  .ok ⟨signature, pubkey, timestamp, number_of_block, d.get_len⟩

/-- Well-formed fields: reference widths, u32-representable numbers, `len`
consistent with the packing. -/
def wf (t : NegativeGossipTransaction) : Prop :=
  t.signature.length = 64 ∧ t.pubkey.length = 33 ∧
  t.timestamp < 4294967296 ∧ t.number_of_block < 4294967296 ∧
  t.len = t.pack.length

theorem negative_parse_pack (t : NegativeGossipTransaction) (hw : t.wf) :
    parse t.pack = .ok t := by
  obtain ⟨hsig, hpub, hts, hn, hlen⟩ := hw
  have e1 : t.pack = t.signature ++ (t.pubkey ++
      (Serializer.write_u32 t.timestamp ++ Serializer.write_u32 t.number_of_block)) := by
    simp [pack, Serializer.write_signature, Serializer.write_timestamp, List.append_assoc]
  have s1 := Deserializer.takeBytes_exact t.signature
    (t.pubkey ++ (Serializer.write_u32 t.timestamp ++ Serializer.write_u32 t.number_of_block))
    0 64 hsig.symm
  have s2 := Deserializer.takeBytes_exact t.pubkey
    (Serializer.write_u32 t.timestamp ++ Serializer.write_u32 t.number_of_block)
    (0 + 64) 33 hpub.symm
  have s3 := Deserializer.takeBytes_exact (Serializer.write_u32 t.timestamp)
    (Serializer.write_u32 t.number_of_block)
    (0 + 64 + 33) 4 (Serializer.write_u32_length t.timestamp).symm
  have s4 := Deserializer.takeBytes_exact (Serializer.write_u32 t.number_of_block)
    [] (0 + 64 + 33 + 4) 4 (Serializer.write_u32_length t.number_of_block).symm
  rw [List.append_nil] at s4
  have hlen2 : t.pack.length = 105 := by
    rw [e1]
    simp [hsig, hpub, Serializer.write_u32_length]
  have f3 := Deserializer.fromBE4_write_u32 t.timestamp hts
  have f4 := Deserializer.fromBE4_write_u32 t.number_of_block hn
  have hlen3 : t.len = 105 := by rw [hlen, hlen2]
  unfold parse
  simp only [Deserializer.parse_signature, Deserializer.parse_pubkey,
    Deserializer.parse_timestamp, Deserializer.parse_u32, Deserializer.get_len, e1]
  rw [s1]
  simp [Bind.bind, Except.bind, s2, s3, s4, f3, f4, hlen3]
  rw [← hlen3]

end NegativeGossipTransaction

/-- `PositiveGossipTransaction`: signature, sender public key, timestamp and
the answered block hash. -/
structure PositiveGossipTransaction where
  signature : Bytes
  pubkey : Bytes
  timestamp : Nat
  block_hash : Bytes
  len : Nat
deriving DecidableEq

namespace PositiveGossipTransaction

/-- `PositiveGossipTransaction.pack`. -/
def pack (t : PositiveGossipTransaction) : Bytes :=
  Serializer.write_signature t.signature ++ t.pubkey ++
    Serializer.write_timestamp t.timestamp ++ t.block_hash

/-- `PositiveGossipTransaction.parse`. -/
def parse (raw_data : Bytes) : Except String PositiveGossipTransaction := do
  let d : Deserializer := ⟨raw_data, 0⟩
  let (signature, d) ← d.parse_signature
  let (pubkey, d) ← d.parse_pubkey
  let (timestamp, d) ← d.parse_timestamp
  let (block_hash, d) ← d.parse_hash
  .ok ⟨signature, pubkey, timestamp, block_hash, d.get_len⟩

/-- Well-formed fields. -/
def wf (t : PositiveGossipTransaction) : Prop :=
  t.signature.length = 64 ∧ t.pubkey.length = 33 ∧
  t.timestamp < 4294967296 ∧ t.block_hash.length = 32 ∧
  t.len = t.pack.length

theorem positive_parse_pack (t : PositiveGossipTransaction) (hw : t.wf) :
    parse t.pack = .ok t := by
  obtain ⟨hsig, hpub, hts, hh, hlen⟩ := hw
  have e1 : t.pack = t.signature ++ (t.pubkey ++
      (Serializer.write_u32 t.timestamp ++ t.block_hash)) := by
    simp [pack, Serializer.write_signature, Serializer.write_timestamp, List.append_assoc]
  have s1 := Deserializer.takeBytes_exact t.signature
    (t.pubkey ++ (Serializer.write_u32 t.timestamp ++ t.block_hash)) 0 64 hsig.symm
  have s2 := Deserializer.takeBytes_exact t.pubkey
    (Serializer.write_u32 t.timestamp ++ t.block_hash) (0 + 64) 33 hpub.symm
  have s3 := Deserializer.takeBytes_exact (Serializer.write_u32 t.timestamp)
    t.block_hash (0 + 64 + 33) 4 (Serializer.write_u32_length t.timestamp).symm
  have s4 := Deserializer.takeBytes_exact t.block_hash [] (0 + 64 + 33 + 4) 32 hh.symm
  rw [List.append_nil] at s4
  have hlen2 : t.pack.length = 133 := by
    rw [e1]
    simp [hsig, hpub, hh, Serializer.write_u32_length]
  have f3 := Deserializer.fromBE4_write_u32 t.timestamp hts
  have hlen3 : t.len = 133 := by rw [hlen, hlen2]
  unfold parse
  simp only [Deserializer.parse_signature, Deserializer.parse_pubkey,
    Deserializer.parse_timestamp, Deserializer.parse_u32, Deserializer.parse_hash,
    Deserializer.get_len, e1]
  rw [s1]
  simp [Bind.bind, Except.bind, s2, s3, s4, f3, hlen3]
  rw [← hlen3]

end PositiveGossipTransaction

/-- `CommitRandomTransaction`: the encrypted 32 random bytes, the committer's
public key and the signature (`transaction/commit_transactions.py`). -/
structure CommitRandomTransaction where
  rand : Bytes
  pubkey : Bytes
  signature : Bytes
  len : Nat
deriving DecidableEq

namespace CommitRandomTransaction

/-- `CommitRandomTransaction.pack`. -/
def pack (t : CommitRandomTransaction) : Bytes :=
  Serializer.write_encrypted_data t.rand ++ t.pubkey ++
    Serializer.write_signature t.signature

/-- `CommitRandomTransaction.parse`. -/
def parse (raw_data : Bytes) : Except String CommitRandomTransaction := do
  let d : Deserializer := ⟨raw_data, 0⟩
  let (rand, d) ← d.parse_encrypted_data
  let (pubkey, d) ← d.parse_pubkey
  let (signature, d) ← d.parse_signature
  .ok ⟨rand, pubkey, signature, d.get_len⟩

/-- Well-formed fields. -/
def wf (t : CommitRandomTransaction) : Prop :=
  t.rand.length < 4294967296 ∧ t.pubkey.length = 33 ∧
  t.signature.length = 64 ∧ t.len = t.pack.length

theorem commit_parse_pack (t : CommitRandomTransaction) (hw : t.wf) :
    parse t.pack = .ok t := by
  obtain ⟨hr, hpub, hsig, hlen⟩ := hw
  have e1 : t.pack = Serializer.write_u32 t.rand.length ++
      (t.rand ++ (t.pubkey ++ t.signature)) := by
    simp [pack, Serializer.write_encrypted_data, Serializer.write_signature,
      List.append_assoc]
  have s1 := Deserializer.takeBytes_exact (Serializer.write_u32 t.rand.length)
    (t.rand ++ (t.pubkey ++ t.signature)) 0 4
    (Serializer.write_u32_length t.rand.length).symm
  have s2 := Deserializer.takeBytes_exact t.rand (t.pubkey ++ t.signature)
    (0 + 4) t.rand.length rfl
  have s3 := Deserializer.takeBytes_exact t.pubkey t.signature
    (0 + 4 + t.rand.length) 33 hpub.symm
  have s4 := Deserializer.takeBytes_exact t.signature []
    (0 + 4 + t.rand.length + 33) 64 hsig.symm
  rw [List.append_nil] at s4
  have hlen2 : t.pack.length = t.rand.length + 101 := by
    rw [e1]
    simp [hpub, hsig, Serializer.write_u32_length]
    omega
  have f1 := Deserializer.fromBE4_write_u32 t.rand.length hr
  have hlen3 : t.len = t.rand.length + 101 := by rw [hlen, hlen2]
  unfold parse
  simp only [Deserializer.parse_encrypted_data, Deserializer.parse_pubkey,
    Deserializer.parse_signature, Deserializer.parse_u32, Deserializer.get_len, e1]
  rw [s1]
  simp [Bind.bind, Except.bind, s2, s3, s4, f1, hlen3]
  rw [show 4 + t.rand.length + 33 + 64 = t.len by omega]

end CommitRandomTransaction

/-- `RevealRandomTransaction`: the hash of the commit it discloses and the
private key that decrypts it (`transaction/commit_transactions.py`). -/
structure RevealRandomTransaction where
  commit_hash : Bytes
  key : Bytes
  len : Nat
deriving DecidableEq

namespace RevealRandomTransaction

/-- `RevealRandomTransaction.pack`. -/
def pack (t : RevealRandomTransaction) : Bytes :=
  t.commit_hash ++ Serializer.write_private_key t.key

/-- `RevealRandomTransaction.parse`. -/
def parse (raw_data : Bytes) : Except String RevealRandomTransaction := do
  let d : Deserializer := ⟨raw_data, 0⟩
  let (commit_hash, d) ← d.parse_hash
  let (key, d) ← d.parse_private_key
  .ok ⟨commit_hash, key, d.get_len⟩

/-- Well-formed fields. -/
def wf (t : RevealRandomTransaction) : Prop :=
  t.commit_hash.length = 32 ∧ t.key.length < 4294967296 ∧
  t.len = t.pack.length

theorem reveal_parse_pack (t : RevealRandomTransaction) (hw : t.wf) :
    parse t.pack = .ok t := by
  obtain ⟨hh, hk, hlen⟩ := hw
  have e1 : t.pack = t.commit_hash ++
      (Serializer.write_u32 t.key.length ++ t.key) := by
    simp [pack, Serializer.write_private_key, List.append_assoc]
  have s1 := Deserializer.takeBytes_exact t.commit_hash
    (Serializer.write_u32 t.key.length ++ t.key) 0 32 hh.symm
  have s2 := Deserializer.takeBytes_exact (Serializer.write_u32 t.key.length)
    t.key (0 + 32) 4 (Serializer.write_u32_length t.key.length).symm
  have s3 := Deserializer.takeBytes_exact t.key [] (0 + 32 + 4) t.key.length rfl
  rw [List.append_nil] at s3
  have hlen2 : t.pack.length = t.key.length + 36 := by
    rw [e1]
    simp [hh, Serializer.write_u32_length]
    omega
  have f1 := Deserializer.fromBE4_write_u32 t.key.length hk
  have hlen3 : t.len = t.key.length + 36 := by rw [hlen, hlen2]
  unfold parse
  simp only [Deserializer.parse_hash, Deserializer.parse_private_key,
    Deserializer.parse_u32, Deserializer.get_len, e1]
  rw [s1]
  simp [Bind.bind, Except.bind, s2, s3, f1, hlen3]
  rw [show 36 + t.key.length = t.len by omega]

end RevealRandomTransaction

/-- C9: for each of the four transaction kinds with well-formed fields,
parsing the bytes produced by `pack` yields the transaction back field by
field, and re-packing the parse result reproduces the identical byte
string. -/
theorem c9_pack_parse_round_trip :
    (∀ t : NegativeGossipTransaction, t.wf →
      NegativeGossipTransaction.parse t.pack = .ok t ∧
      (NegativeGossipTransaction.parse t.pack).map NegativeGossipTransaction.pack =
        .ok t.pack) ∧
    (∀ t : PositiveGossipTransaction, t.wf →
      PositiveGossipTransaction.parse t.pack = .ok t ∧
      (PositiveGossipTransaction.parse t.pack).map PositiveGossipTransaction.pack =
        .ok t.pack) ∧
    (∀ t : CommitRandomTransaction, t.wf →
      CommitRandomTransaction.parse t.pack = .ok t ∧
      (CommitRandomTransaction.parse t.pack).map CommitRandomTransaction.pack =
        .ok t.pack) ∧
    (∀ t : RevealRandomTransaction, t.wf →
      RevealRandomTransaction.parse t.pack = .ok t ∧
      (RevealRandomTransaction.parse t.pack).map RevealRandomTransaction.pack =
        .ok t.pack) := by
  refine ⟨fun t hw => ?_, fun t hw => ?_, fun t hw => ?_, fun t hw => ?_⟩
  · have h := NegativeGossipTransaction.negative_parse_pack t hw
    exact ⟨h, by rw [h]; rfl⟩
  · have h := PositiveGossipTransaction.positive_parse_pack t hw
    exact ⟨h, by rw [h]; rfl⟩
  · have h := CommitRandomTransaction.commit_parse_pack t hw
    exact ⟨h, by rw [h]; rfl⟩
  · have h := RevealRandomTransaction.reveal_parse_pack t hw
    exact ⟨h, by rw [h]; rfl⟩

/-- Concrete well-formed sample transactions for the C9 witness. -/
def c9NegExample : NegativeGossipTransaction :=
  ⟨List.replicate 64 1, List.replicate 33 2, 7, 9, 105⟩

/-- Sample positive gossip transaction. -/
def c9PosExample : PositiveGossipTransaction :=
  ⟨List.replicate 64 1, List.replicate 33 2, 7, List.replicate 32 3, 133⟩

/-- Sample commit transaction (2 payload bytes). -/
def c9CommitExample : CommitRandomTransaction :=
  ⟨[5, 6], List.replicate 33 2, List.replicate 64 1, 103⟩

/-- Sample reveal transaction (3 key bytes). -/
def c9RevealExample : RevealRandomTransaction :=
  ⟨List.replicate 32 3, [8, 9, 10], 39⟩

/-- Witness for `c9_pack_parse_round_trip` at the four samples. -/
theorem c9_pack_parse_round_trip_witness :
    (c9NegExample.wf ∧
      NegativeGossipTransaction.parse c9NegExample.pack = .ok c9NegExample) ∧
    (c9PosExample.wf ∧
      PositiveGossipTransaction.parse c9PosExample.pack = .ok c9PosExample) ∧
    (c9CommitExample.wf ∧
      CommitRandomTransaction.parse c9CommitExample.pack = .ok c9CommitExample) ∧
    (c9RevealExample.wf ∧
      RevealRandomTransaction.parse c9RevealExample.pack = .ok c9RevealExample) :=
  ⟨⟨by simp only [NegativeGossipTransaction.wf]; decide,
    (c9_pack_parse_round_trip.1 c9NegExample
      (by simp only [NegativeGossipTransaction.wf]; decide)).1⟩,
   ⟨by simp only [PositiveGossipTransaction.wf]; decide,
    (c9_pack_parse_round_trip.2.1 c9PosExample
      (by simp only [PositiveGossipTransaction.wf]; decide)).1⟩,
   ⟨by simp only [CommitRandomTransaction.wf]; decide,
    (c9_pack_parse_round_trip.2.2.1 c9CommitExample
      (by simp only [CommitRandomTransaction.wf]; decide)).1⟩,
   ⟨by simp only [RevealRandomTransaction.wf]; decide,
    (c9_pack_parse_round_trip.2.2.2 c9RevealExample
      (by simp only [RevealRandomTransaction.wf]; decide)).1⟩⟩

/-! ### The transaction wire parser and the incoming-transaction handler
(claim C8). -/

/-- The tagged sum of wire transaction kinds handled here. -/
inductive WireTransaction where
  | negative_gossip (t : NegativeGossipTransaction)
  | positive_gossip (t : PositiveGossipTransaction)
  | commit_random (t : CommitRandomTransaction)
  | reveal_random (t : RevealRandomTransaction)
deriving DecidableEq

/-- Modelled from the spec (section 6): `transaction/transaction_parser.py`
is not under `src/`; a wire transaction is a leading tag byte identifying
the kind followed by the kind-specific body, and decoding fails — in Python,
raises — on an empty frame, an unknown tag or a malformed body. -/
def TransactionParser.parse (raw : Bytes) : Except String WireTransaction :=
  match raw with
  | [] => .error "empty frame"
  | tag :: body =>
    if tag = 1 then (NegativeGossipTransaction.parse body).map .negative_gossip
    else if tag = 2 then (PositiveGossipTransaction.parse body).map .positive_gossip
    else if tag = 3 then (CommitRandomTransaction.parse body).map .commit_random
    else if tag = 4 then (RevealRandomTransaction.parse body).map .reveal_random
    else .error "unknown transaction type"

/-- `Node.handle_transaction_message`, reduced to mempool admission: the
handler's first statement is `TransactionParser.parse(raw_transaction)` and
`node/node.py` wraps it in no try/except, so a decode failure propagates out
of the handler to its caller (`Except.error` here); on success the mempool
acceptor decides admission and an invalid transaction is dropped with the
state unchanged. -/
def Node.handle_transaction_message (verifier_ok : WireTransaction → Bool)
    (mempool : List WireTransaction) (raw : Bytes) :
    Except String (List WireTransaction) :=
  match TransactionParser.parse raw with
  | .error e => .error e
  | .ok transaction =>
    .ok (if verifier_ok transaction then mempool ++ [transaction] else mempool)

/-- C8: the incoming-message handler *does* raise on undecodable frames: on
an empty frame, an unknown leading tag, or a truncated body the parse
exception propagates out of `handle_transaction_message` (there is no
try/except in `node/node.py`), so a single malformed message terminates the
caller's loop — contradicting the claim that the frame is dropped silently
and the handlers never raise. -/
theorem c8_handler_raises_on_malformed_frame :
    Node.handle_transaction_message (fun _ => true) [] [] = .error "empty frame" ∧
    Node.handle_transaction_message (fun _ => true) [] [255] =
      .error "unknown transaction type" ∧
    Node.handle_transaction_message (fun _ => true) [] [1] =
      .error "unexpected end of data" :=
  ⟨rfl, rfl, rfl⟩

/-! ## `transaction/commits_set.py` (claim C10). -/

/-- A commit transaction as `CommitsSet` consumes it: its hash identity
(`tx.get_hash().digest()`, abstracted) and its committer's public key.
Modelled from the spec where needed: `commits_set.py` imports
`CommitRandomTransaction` from the older `transaction/transaction.py`,
which is not under `src/`. -/
structure CommitTx where
  hash : Hash
  pubkey : PubKey
deriving DecidableEq

/-- A systemic transaction as it sits in `block.system_txs`; the
`isinstance(tx, CommitRandomTransaction)` check keeps `commit`s only. -/
inductive CSysTx where
  | commit (tx : CommitTx)
  | other (tag : Nat)
deriving DecidableEq

/-- A block as `recursive_collect_commited_transactions` reads it:
`system_txs = none` models a block object without the `system_txs`
attribute (the genesis block), on which the walk returns before adding or
recursing. -/
structure CBlock where
  prev_hashes : List Hash
  system_txs : Option (List CSysTx)
deriving DecidableEq

/-- The DAG index consumed by `CommitsSet`. -/
structure CommitsDag where
  blocks_by_hash : Hash → Option CBlock

/-- The *class-level* dictionaries of `CommitsSet`: `transactions_by_hash`
and `transactions_by_pubkey` are class attributes (declared on the class
body, mutated in place by `add_transaction`), so every instance in the
process reads and writes the same two maps; they are threaded through
construction as explicit shared state. -/
structure CommitsSetState where
  transactions_by_hash : Hash → Option CommitTx
  transactions_by_pubkey : PubKey → Option CommitTx

/-- `CommitsSet.add_transaction`: store the transaction under its hash and
under its committer's public key. -/
def CommitsSetState.add_transaction (st : CommitsSetState) (tx : CommitTx) :
    CommitsSetState :=
  { transactions_by_hash := fun k =>
      if k = tx.hash then some tx else st.transactions_by_hash k,
    transactions_by_pubkey := fun p =>
      if p = tx.pubkey then some tx else st.transactions_by_pubkey p }

/-- `CommitsSet.recursive_collect_commited_transactions` over a worklist,
with an explicit recursion-depth bound `fuel` (the Python recursion
terminates because parents precede their children in an acyclic DAG; the
bound plays that role here): look the hash up, stop at blocks without the
`system_txs` attribute, add every commit transaction of the block, then
recurse into its parent hashes before the rest of the worklist. -/
def collectCommits (dag : CommitsDag) :
    Nat → List Hash → CommitsSetState → CommitsSetState
  | _, [], st => st
  | 0, _ :: _, st => st
  | fuel + 1, tx_hash :: rest, st =>
    match dag.blocks_by_hash tx_hash with
    | none => collectCommits dag (fuel + 1) rest st
    | some block =>
      match block.system_txs with
      | none => collectCommits dag (fuel + 1) rest st
      | some txs =>
        let st1 := txs.foldl
          (fun acc tx => match tx with
            | .commit c => acc.add_transaction c
            | .other _ => acc) st
        let st2 := collectCommits dag fuel block.prev_hashes st1
        collectCommits dag (fuel + 1) rest st2
termination_by fuel l _ => (fuel, l)

/-- `CommitsSet.__init__(dag, top_block_hash)`: collect starting from the
*existing* class-level state `st` — the maps are not reset. -/
def CommitsSet.construct (st : CommitsSetState) (dag : CommitsDag) (fuel : Nat)
    (top_block_hash : Hash) : CommitsSetState :=
  collectCommits dag fuel [top_block_hash] st

/-- `ReachesCommit dag h c d`: commit transaction `c` sits in a block
reachable from hash `h` through `d` parent links, every block on the way
carrying a `system_txs` attribute (the walk stops at blocks without it). -/
inductive ReachesCommit (dag : CommitsDag) : Hash → CommitTx → Nat → Prop where
  | here (h : Hash) (b : CBlock) (txs : List CSysTx) (c : CommitTx) :
      dag.blocks_by_hash h = some b → b.system_txs = some txs →
      CSysTx.commit c ∈ txs → ReachesCommit dag h c 0
  | step (h p : Hash) (b : CBlock) (txs : List CSysTx) (c : CommitTx) (d : Nat) :
      dag.blocks_by_hash h = some b → b.system_txs = some txs →
      p ∈ b.prev_hashes → ReachesCommit dag p c d → ReachesCommit dag h c (d + 1)

/-- `st'` keeps every key of `st` in both maps. -/
def KeepsKeys (st st' : CommitsSetState) : Prop :=
  (∀ k, (st.transactions_by_hash k).isSome = true →
    (st'.transactions_by_hash k).isSome = true) ∧
  (∀ p, (st.transactions_by_pubkey p).isSome = true →
    (st'.transactions_by_pubkey p).isSome = true)

theorem KeepsKeys.rfl (st : CommitsSetState) : KeepsKeys st st :=
  ⟨fun _ h => h, fun _ h => h⟩

theorem KeepsKeys.trans {s1 s2 s3 : CommitsSetState} (h12 : KeepsKeys s1 s2)
    (h23 : KeepsKeys s2 s3) : KeepsKeys s1 s3 :=
  ⟨fun k h => h23.1 k (h12.1 k h), fun p h => h23.2 p (h12.2 p h)⟩

theorem CommitsSetState.add_transaction_keeps (st : CommitsSetState) (tx : CommitTx) :
    KeepsKeys st (st.add_transaction tx) := by
  constructor
  · intro k h
    by_cases hk : k = tx.hash <;> simp [CommitsSetState.add_transaction, hk, h]
  · intro p h
    by_cases hp : p = tx.pubkey <;> simp [CommitsSetState.add_transaction, hp, h]

theorem foldl_add_keeps (txs : List CSysTx) :
    ∀ st : CommitsSetState,
      KeepsKeys st (txs.foldl
        (fun acc tx => match tx with
          | .commit c => acc.add_transaction c
          | .other _ => acc) st) := by
  induction txs with
  | nil => intro st; exact KeepsKeys.rfl st
  | cons tx rest ih =>
    intro st
    rw [List.foldl_cons]
    cases tx with
    | commit c => exact (st.add_transaction_keeps c).trans (ih _)
    | other tag => exact ih st

theorem collectCommits_keeps (dag : CommitsDag) :
    ∀ (fuel : Nat) (l : List Hash) (st : CommitsSetState),
      KeepsKeys st (collectCommits dag fuel l st) := by
  intro fuel
  induction fuel with
  | zero =>
    intro l st
    cases l <;> simp only [collectCommits] <;> exact KeepsKeys.rfl st
  | succ fuel ihf =>
    intro l
    induction l with
    | nil =>
      intro st
      simp only [collectCommits]
      exact KeepsKeys.rfl st
    | cons h0 rest ihl =>
      intro st
      simp only [collectCommits]
      cases hb : dag.blocks_by_hash h0 with
      | none => exact ihl st
      | some block =>
        dsimp only
        cases hsys : block.system_txs with
        | none => exact ihl st
        | some txs =>
          dsimp only
          exact ((foldl_add_keeps txs st).trans
            (ihf block.prev_hashes _)).trans (ihl _)

theorem foldl_add_mem (txs : List CSysTx) (c : CommitTx) :
    ∀ st : CommitsSetState, CSysTx.commit c ∈ txs →
      ((txs.foldl
          (fun acc tx => match tx with
            | .commit c => acc.add_transaction c
            | .other _ => acc) st).transactions_by_hash c.hash).isSome = true ∧
      ((txs.foldl
          (fun acc tx => match tx with
            | .commit c => acc.add_transaction c
            | .other _ => acc) st).transactions_by_pubkey c.pubkey).isSome = true := by
  induction txs with
  | nil => intro st h; cases h
  | cons tx rest ih =>
    intro st hmem
    rw [List.foldl_cons]
    rcases List.mem_cons.mp hmem with heq | hmem2
    · subst heq
      constructor
      · exact (foldl_add_keeps rest _).1 c.hash
          (by simp [CommitsSetState.add_transaction])
      · exact (foldl_add_keeps rest _).2 c.pubkey
          (by simp [CommitsSetState.add_transaction])
    · exact ih _ hmem2

theorem collectCommits_reaches (dag : CommitsDag) :
    ∀ (fuel : Nat) (l : List Hash) (st : CommitsSetState) (c : CommitTx)
      (d : Nat) (h : Hash),
      h ∈ l → ReachesCommit dag h c d → d < fuel →
      ((collectCommits dag fuel l st).transactions_by_hash c.hash).isSome = true ∧
      ((collectCommits dag fuel l st).transactions_by_pubkey c.pubkey).isSome = true := by
  intro fuel
  induction fuel with
  | zero =>
    intro l st c d h _ _ hd
    exact absurd hd (Nat.not_lt_zero d)
  | succ fuel ihf =>
    intro l
    induction l with
    | nil => intro st c d h hmem _ _; cases hmem
    | cons h0 rest ihl =>
      intro st c d h hmem hreach hd
      simp only [collectCommits]
      rcases List.mem_cons.mp hmem with rfl | hmem2
      · cases hreach with
        | here _ b txs _ hb hsys hcmem =>
          rw [hb]
          simp only [hsys]
          have hfold := foldl_add_mem txs c st hcmem
          exact ⟨(collectCommits_keeps dag (fuel + 1) rest _).1 _
              ((collectCommits_keeps dag fuel b.prev_hashes _).1 _ hfold.1),
            (collectCommits_keeps dag (fuel + 1) rest _).2 _
              ((collectCommits_keeps dag fuel b.prev_hashes _).2 _ hfold.2)⟩
        | step _ p b txs _ d2 hb hsys hp hreach2 =>
          rw [hb]
          simp only [hsys]
          have hpresent := ihf b.prev_hashes
            (txs.foldl
              (fun acc tx => match tx with
                | .commit c => acc.add_transaction c
                | .other _ => acc) st) c d2 p hp hreach2 (by omega)
          exact ⟨(collectCommits_keeps dag (fuel + 1) rest _).1 _ hpresent.1,
            (collectCommits_keeps dag (fuel + 1) rest _).2 _ hpresent.2⟩
      · cases hb : dag.blocks_by_hash h0 with
        | none => exact ihl st c d h hmem2 hreach hd
        | some block =>
          dsimp only
          cases hsys : block.system_txs with
          | none => exact ihl st c d h hmem2 hreach hd
          | some txs =>
            dsimp only
            exact ihl _ c d h hmem2 hreach hd

/-- C10: the `CommitsSet` maps are process-wide class-level state.
Constructing a `CommitsSet` over `top` starts from the existing shared
state, so (i) every entry present before construction — in particular every
entry added by an earlier construction — is still present afterwards, in
both maps, and (ii) the maps additionally contain every commit transaction
reachable from `top` (within the recursion depth `fuel`), keyed by hash and
by committer public key.  Two instances observe the same maps because both
read and extend the same threaded class state. -/
theorem c10_commits_set_shared_class_state (dag : CommitsDag) (fuel : Nat)
    (st : CommitsSetState) (top : Hash) :
    (∀ k, (st.transactions_by_hash k).isSome = true →
      ((CommitsSet.construct st dag fuel top).transactions_by_hash k).isSome = true) ∧
    (∀ p, (st.transactions_by_pubkey p).isSome = true →
      ((CommitsSet.construct st dag fuel top).transactions_by_pubkey p).isSome = true) ∧
    (∀ c d, ReachesCommit dag top c d → d < fuel →
      ((CommitsSet.construct st dag fuel top).transactions_by_hash c.hash).isSome = true ∧
      ((CommitsSet.construct st dag fuel top).transactions_by_pubkey c.pubkey).isSome = true) :=
  ⟨fun k hk => (collectCommits_keeps dag fuel [top] st).1 k hk,
   fun p hp => (collectCommits_keeps dag fuel [top] st).2 p hp,
   fun c d hreach hd =>
     collectCommits_reaches dag fuel [top] st c d top (List.mem_singleton.mpr rfl)
       hreach hd⟩

/-- The DAG for the C10 witness: genesis (hash 0, no `system_txs`
attribute) and block 1 on top of it carrying one commit transaction
(hash 5, committer 9). -/
def c10DagExample : CommitsDag :=
  { blocks_by_hash := fun h =>
      if h = 0 then some ⟨[], none⟩
      else if h = 1 then some ⟨[0], some [.commit ⟨5, 9⟩]⟩
      else none }

/-- The pre-existing class state for the C10 witness: a commit (hash 7,
committer 8) added by an earlier construction. -/
def c10StExample : CommitsSetState :=
  CommitsSetState.add_transaction
    ⟨fun _ => none, fun _ => none⟩ ⟨7, 8⟩

/-- Witness for `c10_commits_set_shared_class_state`: after constructing
over block 1, the earlier entry (hash 7) survives and block 1's commit
(hash 5 by committer 9) is present in both maps. -/
theorem c10_commits_set_shared_class_state_witness :
    ((CommitsSet.construct c10StExample c10DagExample 2 1).transactions_by_hash 7).isSome = true ∧
    ((CommitsSet.construct c10StExample c10DagExample 2 1).transactions_by_hash 5).isSome = true ∧
    ((CommitsSet.construct c10StExample c10DagExample 2 1).transactions_by_pubkey 9).isSome = true :=
  ⟨(c10_commits_set_shared_class_state c10DagExample 2 c10StExample 1).1 7 (by decide),
   ((c10_commits_set_shared_class_state c10DagExample 2 c10StExample 1).2.2 ⟨5, 9⟩ 0
      (ReachesCommit.here 1 ⟨[0], some [.commit ⟨5, 9⟩]⟩ [.commit ⟨5, 9⟩] ⟨5, 9⟩
        (by decide) (by decide) (by decide)) (by decide)).1,
   ((c10_commits_set_shared_class_state c10DagExample 2 c10StExample 1).2.2 ⟨5, 9⟩ 0
      (ReachesCommit.here 1 ⟨[0], some [.commit ⟨5, 9⟩]⟩ [.commit ⟨5, 9⟩] ⟨5, 9⟩
        (by decide) (by decide) (by decide)) (by decide)).2⟩
